import Mathlib

/-!
Shallow embedding of `src/bridge.cpp` (LibAiEngine), a thin native bridge
over a llama.cpp-style inference engine, together with theorems settling
the specification claims about it.

Modelling conventions:
- The external engine (llama.cpp / mtmd) is an opaque collaborator; its
  calls are modelled by oracle parameters (for example, whether
  `llama_model_load_from_file` returns a non-null handle).
- C++ pointers that may be null are modelled as `Option`.
- `nlohmann::json` values are modelled by the inductive `JVal`
  (floating-point numbers are outside the modelled fragment; none of the
  claims involves them).  `json::parse` is external library code, so the
  input to `configure_engine` is modelled as its parse result:
  `none` for a parse error, `some j` for a successfully parsed value.
- C++ `int` overflow never matters for the claims at hand, so integer
  fields are `Int`; the single machine-width cast in the source
  (`(uint32_t)time(NULL)`) is modelled with an explicit `% 2^32`.
-/

namespace LibAiEngine

/-- JSON values as produced by `nlohmann::json::parse`.  Floating-point
numbers are not representable in the embedding and are omitted; no claim
mentions them. -/
inductive JVal where
  | jnull
  | jbool (b : Bool)
  | jint (n : Int)
  | jstr (s : String)
  | jarr (xs : List JVal)
  | jobj (kvs : List (String × JVal))

/-- Key lookup in a JSON object, as used by `j.contains(key)` /
`j[key]` on an object whose keys are distinct. -/
def jlookup : List (String × JVal) → String → Option JVal
  | [], _ => none
  | (k, v) :: rest, key => if k = key then some v else jlookup rest key

/-- The field list of a JSON value: `contains` on a non-object returns
`false`, which is the same as looking a key up in the empty field list. -/
def objFields : JVal → List (String × JVal)
  | .jobj kvs => kvs
  | _ => []

/-- nlohmann's implicit conversion of a JSON value to a C++ `int`
(`get<int>`): integral numbers and booleans convert, everything else
throws `type_error.302`, modelled as `none`. -/
def jvalToInt : JVal → Option Int
  | .jint n => some n
  | .jbool b => some (if b then 1 else 0)
  | _ => none

/-- The `GlobalConfig` struct of bridge.cpp (lines 20-27). -/
structure GlobalConfig where
  n_threads : Int
  n_threads_batch : Int
  n_ctx : Int
  n_batch : Int
  img_max_tokens : Int
  kv_quant : Bool
deriving DecidableEq

/-- The in-class initializers of `GlobalConfig`: the state of `g_conf`
at process start. -/
def defaultConfig : GlobalConfig :=
  ⟨4, 4, 2048, 512, 128, true⟩

/-- One guarded field application
`if (j.contains(key)) g_conf.field = j[key];` of `configure_engine`:
`none` models the conversion throwing (field present but not
convertible to `int`); otherwise the possibly-updated config. -/
def applyField (j : JVal) (key : String) (upd : GlobalConfig → Int → GlobalConfig)
    (conf : GlobalConfig) : Option GlobalConfig :=
  match jlookup (objFields j) key with
  | none => some conf
  | some v => Option.map (upd conf) (jvalToInt v)

/-- Model of `configure_engine` (bridge.cpp lines 51-61).  The argument
is the result of `json::parse` on the input string (`none` = parse
threw).  The four guarded assignments run in source order inside one
`try`; the first conversion that throws aborts the sequence, returning
-1 while keeping every assignment already performed (the C++ writes go
directly to the global `g_conf`). -/
def configure_engine (parsed : Option JVal) (conf : GlobalConfig) :
    Int × GlobalConfig :=
  match parsed with
  | none => (-1, conf)
  | some j =>
    match applyField j "n_threads" (fun c v => { c with n_threads := v }) conf with
    | none => (-1, conf)
    | some c1 =>
      match applyField j "n_ctx" (fun c v => { c with n_ctx := v }) c1 with
      | none => (-1, c1)
      | some c2 =>
        match applyField j "n_batch" (fun c v => { c with n_batch := v }) c2 with
        | none => (-1, c2)
        | some c3 =>
          match applyField j "img_max_tokens"
              (fun c v => { c with img_max_tokens := v }) c3 with
          | none => (-1, c3)
          | some c4 => (0, c4)

/-- One stage of the sampler chain built in `load_model` (bridge.cpp
lines 105-111).  Floating-point parameters (1.45f, 0.4f, 0.95f, 0.7f)
are outside the embedding; the integer parameters and the seed are
kept. -/
inductive SamplerStage where
  | penalties (lastN : Int)
  | top_k (k : Int)
  | top_p (minKeep : Int)
  | temp
  | dist (seed : Nat)
deriving DecidableEq

/-- The `llama_context_params` fields written by `load_model`
(bridge.cpp lines 91-100).  `kv_q8` records whether `type_k`/`type_v`
were set to `GGML_TYPE_Q8_0`. -/
structure LlamaCtxParams where
  n_ctx : Int
  n_threads : Int
  n_threads_batch : Int
  n_batch : Int
  n_ubatch : Int
  kv_q8 : Bool
deriving DecidableEq

/-- The `mtmd_context_params` fields written by `load_mmproj`
(bridge.cpp lines 74-77). -/
structure MtmdParams where
  use_gpu : Bool
  image_min_tokens : Int
  image_max_tokens : Int
deriving DecidableEq

/-- The process-global mutable state of bridge.cpp (lines 29-35).
Null pointers are `none`; a loaded model handle is tagged with the path
it was loaded from, a context handle with the parameters it was created
with, the sampler handle with its stage list. -/
structure EngineState where
  conf : GlobalConfig
  g_model : Option String
  g_ctx : Option LlamaCtxParams
  g_vocab : Bool
  g_sampler : Option (List SamplerStage)
  g_mtmd_ctx : Option MtmdParams
  g_cancel_flag : Bool
deriving DecidableEq

/-- State at process start: every handle null, flag clear, default
configuration. -/
def initState : EngineState :=
  ⟨defaultConfig, none, none, false, none, none, false⟩

/-- Model of `cancel_inference` (bridge.cpp line 69). -/
def cancel_inference (st : EngineState) : EngineState :=
  { st with g_cancel_flag := true }

/-- Model of `load_mmproj` (bridge.cpp lines 71-80).  `initOk` is the
oracle for `mtmd_init_from_file` returning a non-null handle; on
failure the global projector handle holds the returned null. -/
def load_mmproj (st : EngineState) (initOk : Bool) : Int × EngineState :=
  match st.g_model with
  | none => (-2, st)
  | some _ =>
    if initOk then
      (0, { st with g_mtmd_ctx := some ⟨false, 32, st.conf.img_max_tokens⟩ })
    else
      (-1, { st with g_mtmd_ctx := none })

/-- Model of `load_model` (bridge.cpp lines 82-114).  `modelLoadOk` and
`ctxOk` are the oracles for `llama_model_load_from_file` and
`llama_init_from_model` returning non-null handles; `timeNow` is the
oracle for `time(NULL)`, cast to `uint32_t` in the source for the
sampler seed. -/
def load_model (st : EngineState) (p : String) (modelLoadOk ctxOk : Bool)
    (timeNow : Nat) : Int × EngineState :=
  if modelLoadOk = false then
    (-1, { st with g_model := none })
  else
    let st1 := { st with g_model := some p, g_vocab := true }
    let cp : LlamaCtxParams :=
      ⟨st.conf.n_ctx, st.conf.n_threads, st.conf.n_threads, st.conf.n_batch,
        Int.tdiv st.conf.n_batch 2, st.conf.kv_quant⟩
    if ctxOk = false then
      (-2, { st1 with g_ctx := none })
    else
      (0, { st1 with
              g_ctx := some cp,
              g_sampler := some [SamplerStage.penalties 64, SamplerStage.top_k 40,
                SamplerStage.top_p 1, SamplerStage.temp,
                SamplerStage.dist (timeNow % 2 ^ 32)] })

/-- A state in which `load_model` has succeeded (used as a concrete
test state). -/
def loadedState : EngineState :=
  (load_model initState "model.gguf" true true 0).2

/-- Oracles for the external engine calls made inside `infer`'s
generation loop, indexed by loop step.  `cancelDelivered i` means a
`cancel_inference` call from another thread lands in the window before
the flag poll of step `i` (and after `infer`'s reset of the flag on
entry). -/
structure InferEnv where
  sampled : Nat → Int
  isEog : Int → Bool
  pieceLen : Int → Int
  decodeOk : Nat → Bool
  cancelDelivered : Nat → Bool

/-- Value of `g_cancel_flag` read at the poll of step `i`: true iff some
cancel was delivered at a window `j ≤ i` after the entry reset (the
flag, once set, stays set for the rest of the call). -/
def flagAt (d : Nat → Bool) (i : Nat) : Bool :=
  (List.range (i + 1)).any d

/-- Why the generation loop of `infer` stopped. -/
inductive StopReason where
  | cancelled
  | eog
  | decodeFail
  | maxSteps
deriving DecidableEq

/-- Observables of the generation loop: number of callback invocations,
number of tokens sampled, and the stop reason. -/
structure LoopResult where
  callbacks : Nat
  samples : Nat
  reason : StopReason
deriving DecidableEq

/-- The generation loop of `infer` (bridge.cpp lines 145-155), with
`i` the loop counter, `cbs` the callbacks performed so far and the
remaining iteration budget as fuel.  Per iteration: poll the flag,
sample a token, check end-of-generation, invoke the callback when
`llama_token_to_piece` returned a positive length, then decode; a
failed decode ends the loop after that callback. -/
def genLoop (env : InferEnv) (i cbs : Nat) : Nat → LoopResult
  | 0 => ⟨cbs, i, StopReason.maxSteps⟩
  | fuel + 1 =>
    if flagAt env.cancelDelivered i then ⟨cbs, i, StopReason.cancelled⟩
    else if env.isEog (env.sampled i) then ⟨cbs, i + 1, StopReason.eog⟩
    else if env.decodeOk i then
      genLoop env (i + 1) (if 0 < env.pieceLen (env.sampled i) then cbs + 1 else cbs) fuel
    else
      ⟨if 0 < env.pieceLen (env.sampled i) then cbs + 1 else cbs, i + 1,
        StopReason.decodeFail⟩

/-- The branch condition of bridge.cpp line 122:
`img && g_mtmd_ctx && strlen(img) > 0`. -/
def imageBranchTaken (st : EngineState) (img : Option String) : Bool :=
  match img with
  | none => false
  | some s => st.g_mtmd_ctx.isSome && decide (s ≠ "")

/-- Observables of one `infer` call. -/
structure InferResult where
  ret : Int
  usedImageBranch : Bool
  callbacks : Nat
  samples : Nat
  reason : Option StopReason
deriving DecidableEq

/-- Model of `infer` (bridge.cpp lines 117-157).  With a null context
or sampler it returns -1 before touching the flag.  Otherwise it
clears `g_cancel_flag` (line 119), clears the sequence memory, runs the
prefill branch selected by `imageBranchTaken` (whose internal engine
calls have no observable tracked by the claims beyond the branch
choice itself), then runs the generation loop for at most 4096 steps
and returns 0. -/
def infer (st : EngineState) (pr : String) (img : Option String) (env : InferEnv) :
    InferResult × EngineState :=
  if st.g_ctx = none ∨ st.g_sampler = none then
    (⟨-1, false, 0, 0, none⟩, st)
  else
    let st1 := { st with g_cancel_flag := false }
    let g := genLoop env 0 0 4096
    (⟨0, imageBranchTaken st img, g.callbacks, g.samples, some g.reason⟩, st1)

/-- The release actions `free_engine` may perform. -/
inductive FreeAction where
  | freeMtmd
  | freeSampler
  | freeModel
  | freeCtx
  | backendFree
deriving DecidableEq

/-- Model of `free_engine` (bridge.cpp lines 159-165): the sequence of
release calls actually performed, each guarded by the source's null
check. -/
def free_engine (st : EngineState) : List FreeAction :=
  (if st.g_mtmd_ctx.isSome then [FreeAction.freeMtmd] else []) ++
  (if st.g_sampler.isSome then [FreeAction.freeSampler] else []) ++
  (if st.g_model.isSome then [FreeAction.freeModel] else []) ++
  (if st.g_ctx.isSome then [FreeAction.freeCtx] else []) ++
  [FreeAction.backendFree]

/-! ## Helper lemmas -/

/-- A successful guarded field application leaves `kv_quant` unchanged
whenever its update function does. -/
theorem applyField_kv_quant (j : JVal) (key : String)
    (upd : GlobalConfig → Int → GlobalConfig) (conf res : GlobalConfig)
    (h : applyField j key upd conf = some res)
    (hupd : ∀ c v, (upd c v).kv_quant = c.kv_quant) :
    res.kv_quant = conf.kv_quant := by
  unfold applyField at h
  cases hL : jlookup (objFields j) key with
  | none =>
    rw [hL] at h
    simp only [Option.some.injEq] at h
    rw [← h]
  | some v =>
    rw [hL] at h
    dsimp only at h
    cases hI : jvalToInt v with
    | none => rw [hI] at h; exact Option.noConfusion h
    | some n =>
      rw [hI] at h
      simp only [Option.map_some', Option.some.injEq] at h
      rw [← h, hupd]

/-- `configure_engine` never changes the KV-quantization flag: no
recognized JSON field maps to it. -/
theorem configure_kv_quant (parsed : Option JVal) (conf : GlobalConfig) :
    (configure_engine parsed conf).2.kv_quant = conf.kv_quant := by
  cases parsed with
  | none => rfl
  | some j =>
    simp only [configure_engine]
    split
    · rfl
    next c1 h1 =>
      have k1 := applyField_kv_quant _ _ _ _ _ h1 (fun c v => rfl)
      split
      · exact k1
      next c2 h2 =>
        have k2 := applyField_kv_quant _ _ _ _ _ h2 (fun c v => rfl)
        split
        · exact k2.trans k1
        next c3 h3 =>
          have k3 := applyField_kv_quant _ _ _ _ _ h3 (fun c v => rfl)
          split
          · exact (k3.trans k2).trans k1
          next c4 h4 =>
            have k4 := applyField_kv_quant _ _ _ _ _ h4 (fun c v => rfl)
            exact ((k4.trans k3).trans k2).trans k1

/-- Under the assumption that the key, when present, holds an
int-convertible value, a guarded field application reduces to an
`Option.elim` over the looked-up value. -/
theorem applyField_eq_elim (kvs : List (String × JVal)) (key : String)
    (hk : ∀ v, jlookup kvs key = some v → (jvalToInt v).isSome = true)
    (upd : GlobalConfig → Int → GlobalConfig) (conf : GlobalConfig) :
    applyField (JVal.jobj kvs) key upd conf =
      some (((jlookup kvs key).bind jvalToInt).elim conf (upd conf)) := by
  unfold applyField
  cases hL : jlookup kvs key with
  | none => simp [objFields, hL]
  | some v =>
    have hv := hk v hL
    cases hI : jvalToInt v with
    | none => rw [hI] at hv; simp at hv
    | some n => simp [objFields, hL, hI]

/-- Eliminating an optional value into an `n_threads` update is the same
as updating with `getD`. -/
theorem elim_upd_n_threads (conf : GlobalConfig) (x : Option Int) :
    x.elim conf (fun v => { conf with n_threads := v }) =
      { conf with n_threads := x.getD conf.n_threads } := by
  cases x <;> rfl

/-- Eliminating an optional value into an `n_ctx` update is the same as
updating with `getD`. -/
theorem elim_upd_n_ctx (conf : GlobalConfig) (x : Option Int) :
    x.elim conf (fun v => { conf with n_ctx := v }) =
      { conf with n_ctx := x.getD conf.n_ctx } := by
  cases x <;> rfl

/-- Eliminating an optional value into an `n_batch` update is the same
as updating with `getD`. -/
theorem elim_upd_n_batch (conf : GlobalConfig) (x : Option Int) :
    x.elim conf (fun v => { conf with n_batch := v }) =
      { conf with n_batch := x.getD conf.n_batch } := by
  cases x <;> rfl

/-- Eliminating an optional value into an `img_max_tokens` update is the
same as updating with `getD`. -/
theorem elim_upd_img_max_tokens (conf : GlobalConfig) (x : Option Int) :
    x.elim conf (fun v => { conf with img_max_tokens := v }) =
      { conf with img_max_tokens := x.getD conf.img_max_tokens } := by
  cases x <;> rfl

/-- Unfolding equation for the generation loop at zero fuel. -/
theorem genLoop_zero (env : InferEnv) (i cbs : Nat) :
    genLoop env i cbs 0 = ⟨cbs, i, StopReason.maxSteps⟩ := rfl

/-- Unfolding equation for the generation loop at positive fuel. -/
theorem genLoop_succ (env : InferEnv) (i cbs fuel : Nat) :
    genLoop env i cbs (fuel + 1) =
      if flagAt env.cancelDelivered i then ⟨cbs, i, StopReason.cancelled⟩
      else if env.isEog (env.sampled i) then ⟨cbs, i + 1, StopReason.eog⟩
      else if env.decodeOk i then
        genLoop env (i + 1) (if 0 < env.pieceLen (env.sampled i) then cbs + 1 else cbs) fuel
      else
        ⟨if 0 < env.pieceLen (env.sampled i) then cbs + 1 else cbs, i + 1,
          StopReason.decodeFail⟩ := rfl

/-- Counting invariant of the generation loop: the sample index never
decreases, grows by at most the fuel, and the loop performs at most one
callback per sampled token. -/
theorem genLoop_counts (env : InferEnv) :
    ∀ fuel i cbs,
      i ≤ (genLoop env i cbs fuel).samples ∧
      (genLoop env i cbs fuel).samples ≤ i + fuel ∧
      (genLoop env i cbs fuel).callbacks + i ≤ cbs + (genLoop env i cbs fuel).samples := by
  intro fuel
  induction fuel with
  | zero =>
    intro i cbs
    rw [genLoop_zero]
    exact ⟨Nat.le_refl i, Nat.le_add_right i 0, Nat.le_refl (cbs + i)⟩
  | succ n ih =>
    intro i cbs
    rw [genLoop_succ]
    split
    · exact ⟨Nat.le_refl i, Nat.le_add_right i (n + 1), Nat.le_refl (cbs + i)⟩
    · split
      · exact ⟨Nat.le_succ i, Nat.add_le_add_left (Nat.succ_le_succ (Nat.zero_le n)) i,
          Nat.le_succ (cbs + i)⟩
      · split
        · by_cases hp : 0 < env.pieceLen (env.sampled i)
          · rw [if_pos hp]
            obtain ⟨ha, hb, hcb⟩ := ih (i + 1) (cbs + 1)
            exact ⟨by omega, by omega, by omega⟩
          · rw [if_neg hp]
            obtain ⟨ha, hb, hcb⟩ := ih (i + 1) cbs
            exact ⟨by omega, by omega, by omega⟩
        · by_cases hp : 0 < env.pieceLen (env.sampled i)
          · rw [if_pos hp]
            refine ⟨Nat.le_succ i, ?_, ?_⟩ <;> dsimp only <;> omega
          · rw [if_neg hp]
            refine ⟨Nat.le_succ i, ?_, ?_⟩ <;> dsimp only <;> omega

/-- Stop-reason characterization of the generation loop: running out of
fuel means every step ran; each early stop reason is justified by the
corresponding oracle at the stopping step. -/
theorem genLoop_stop_reasons (env : InferEnv) :
    ∀ fuel i cbs,
      ((genLoop env i cbs fuel).reason = StopReason.maxSteps →
        (genLoop env i cbs fuel).samples = i + fuel) ∧
      ((genLoop env i cbs fuel).reason = StopReason.cancelled →
        flagAt env.cancelDelivered (genLoop env i cbs fuel).samples = true) ∧
      ((genLoop env i cbs fuel).reason = StopReason.eog →
        env.isEog (env.sampled ((genLoop env i cbs fuel).samples - 1)) = true) ∧
      ((genLoop env i cbs fuel).reason = StopReason.decodeFail →
        env.decodeOk ((genLoop env i cbs fuel).samples - 1) = false) := by
  intro fuel
  induction fuel with
  | zero =>
    intro i cbs
    rw [genLoop_zero]
    exact ⟨fun _ => (Nat.add_zero i).symm, fun h => StopReason.noConfusion h,
      fun h => StopReason.noConfusion h, fun h => StopReason.noConfusion h⟩
  | succ n ih =>
    intro i cbs
    rw [genLoop_succ]
    split
    next hcc =>
      exact ⟨fun h => StopReason.noConfusion h, fun _ => hcc,
        fun h => StopReason.noConfusion h, fun h => StopReason.noConfusion h⟩
    · split
      next heog =>
        exact ⟨fun h => StopReason.noConfusion h, fun h => StopReason.noConfusion h,
          fun _ => heog, fun h => StopReason.noConfusion h⟩
      · split
        · obtain ⟨m1, m2, m3, m4⟩ :=
            ih (i + 1) (if 0 < env.pieceLen (env.sampled i) then cbs + 1 else cbs)
          refine ⟨fun h => ?_, m2, m3, m4⟩
          have := m1 h
          omega
        next hdec =>
          refine ⟨fun h => StopReason.noConfusion h, fun h => StopReason.noConfusion h,
            fun h => StopReason.noConfusion h, fun _ => ?_⟩
          simp only [Bool.not_eq_true] at hdec
          exact hdec

/-- When no stop condition ever holds, the generation loop consumes all
its fuel. -/
theorem genLoop_no_stop (env : InferEnv)
    (hcan : ∀ k, flagAt env.cancelDelivered k = false)
    (heog : ∀ k, env.isEog (env.sampled k) = false)
    (hdec : ∀ k, env.decodeOk k = true) :
    ∀ fuel i cbs, (genLoop env i cbs fuel).reason = StopReason.maxSteps ∧
      (genLoop env i cbs fuel).samples = i + fuel := by
  intro fuel
  induction fuel with
  | zero => intro i cbs; exact ⟨rfl, (Nat.add_zero i).symm⟩
  | succ n ih =>
    intro i cbs
    rw [genLoop_succ]
    simp only [hcan i, heog i, hdec i, Bool.false_eq_true, if_false, if_true]
    obtain ⟨r1, r2⟩ := ih (i + 1) (if 0 < env.pieceLen (env.sampled i) then cbs + 1 else cbs)
    exact ⟨r1, by omega⟩

/-- With a non-null context and sampler, `infer` clears the cancel flag
and reports the observables of the 4096-step generation loop. -/
theorem infer_run (st : EngineState) (pr : String) (img : Option String)
    (env : InferEnv) (hc : ¬ st.g_ctx = none) (hs : ¬ st.g_sampler = none) :
    infer st pr img env =
      (⟨0, imageBranchTaken st img, (genLoop env 0 0 4096).callbacks,
        (genLoop env 0 0 4096).samples, some (genLoop env 0 0 4096).reason⟩,
       { st with g_cancel_flag := false }) := by
  unfold infer
  rw [if_neg (fun h => h.elim hc hs)]

/-! ## Claim theorems -/

/-- C1 counterexample.  The claim says every failing `configure_engine`
call leaves the prior configuration entirely untouched.  On the input
string `{"n_threads": 7, "n_ctx": "x"}` the call fails (returns -1: the
conversion of the string value of `n_ctx` to `int` throws, and the
`catch` reports the failure), yet the `n_threads` field has already
been overwritten from its prior value 4 to 7. -/
theorem configure_engine_fails_yet_mutates :
    (configure_engine
        (some (JVal.jobj [("n_threads", JVal.jint 7), ("n_ctx", JVal.jstr "x")]))
        defaultConfig).1 = -1 ∧
    (configure_engine
        (some (JVal.jobj [("n_threads", JVal.jint 7), ("n_ctx", JVal.jstr "x")]))
        defaultConfig).2.n_threads = 7 ∧
    defaultConfig.n_threads = 4 := by
  exact ⟨rfl, rfl, rfl⟩

/-- C1 (amended).  When `configure_engine` fails because the input
string is not parseable JSON (the parse itself throws), the prior
configuration is left entirely untouched; a failure arising from a
recognized field holding a non-integer value still returns -1 but
keeps the fields already applied before the failing one. -/
theorem configure_engine_parse_error_preserves_config (conf : GlobalConfig) :
    configure_engine none conf = (-1, conf) := rfl

/-- C3 counterexample.  The claim says some JSON input to
`configure_engine` changes the stored KV-quantization flag; in fact no
input does: the four recognized fields are `n_threads`, `n_ctx`,
`n_batch` and `img_max_tokens`, and none of them writes `kv_quant`. -/
theorem kv_quant_not_settable :
    ¬ ∃ (parsed : Option JVal) (conf : GlobalConfig),
        ¬ (configure_engine parsed conf).2.kv_quant = conf.kv_quant := by
  rintro ⟨p, c, h⟩
  exact h (configure_kv_quant p c)

/-- C3 (amended).  The KV-quantization flag is not settable via the
JSON configuration patch: `configure_engine` preserves it on every
input, so it keeps its default (on); it is read at model-load time,
where a successful `load_model` creates the context with
`type_k`/`type_v` quantized exactly when the stored flag is set. -/
theorem kv_quant_fixed_and_read_at_load (parsed : Option JVal)
    (conf : GlobalConfig) (st : EngineState) (p : String) (t : Nat) :
    (configure_engine parsed conf).2.kv_quant = conf.kv_quant ∧
    Option.map LlamaCtxParams.kv_q8 (load_model st p true true t).2.g_ctx =
      some st.conf.kv_quant := by
  exact ⟨configure_kv_quant parsed conf, rfl⟩

/-- C4 (confirmed).  For every JSON object input whose recognized
fields, when present, hold integer values, `configure_engine` succeeds
and each of the four recognized fields independently overrides the
corresponding configuration value; unknown fields are ignored (the
result depends only on the four recognized keys); absent fields retain
their prior values, and the prior values at process start are the
defaults threads=4 (both plain and batch), context=2048, batch=512,
image tokens=128, KV quantization on. -/
theorem configure_engine_recognized_fields (kvs : List (String × JVal))
    (conf : GlobalConfig)
    (h1 : ∀ v, jlookup kvs "n_threads" = some v → (jvalToInt v).isSome = true)
    (h2 : ∀ v, jlookup kvs "n_ctx" = some v → (jvalToInt v).isSome = true)
    (h3 : ∀ v, jlookup kvs "n_batch" = some v → (jvalToInt v).isSome = true)
    (h4 : ∀ v, jlookup kvs "img_max_tokens" = some v → (jvalToInt v).isSome = true) :
    configure_engine (some (JVal.jobj kvs)) conf =
      (0, { n_threads := ((jlookup kvs "n_threads").bind jvalToInt).getD conf.n_threads,
            n_threads_batch := conf.n_threads_batch,
            n_ctx := ((jlookup kvs "n_ctx").bind jvalToInt).getD conf.n_ctx,
            n_batch := ((jlookup kvs "n_batch").bind jvalToInt).getD conf.n_batch,
            img_max_tokens :=
              ((jlookup kvs "img_max_tokens").bind jvalToInt).getD conf.img_max_tokens,
            kv_quant := conf.kv_quant }) ∧
    defaultConfig = ⟨4, 4, 2048, 512, 128, true⟩ := by
  refine ⟨?_, rfl⟩
  simp only [configure_engine, applyField_eq_elim kvs "n_threads" h1,
    applyField_eq_elim kvs "n_ctx" h2, applyField_eq_elim kvs "n_batch" h3,
    applyField_eq_elim kvs "img_max_tokens" h4,
    elim_upd_n_threads, elim_upd_n_ctx, elim_upd_n_batch, elim_upd_img_max_tokens]

/-- C4 witness: a patch setting `n_ctx` to 4096 next to an unknown
field `foo` yields the default configuration with only `n_ctx`
changed. -/
theorem configure_engine_recognized_fields_witness :
    configure_engine
        (some (JVal.jobj [("n_ctx", JVal.jint 4096), ("foo", JVal.jstr "bar")]))
        defaultConfig =
      (0, ⟨4, 4, 4096, 512, 128, true⟩) := by
  have h := configure_engine_recognized_fields
      [("n_ctx", JVal.jint 4096), ("foo", JVal.jstr "bar")] defaultConfig
      (by intro v hv; exact Option.noConfusion hv)
      (by intro v hv
          rw [show jlookup [("n_ctx", JVal.jint 4096), ("foo", JVal.jstr "bar")]
                "n_ctx" = some (JVal.jint 4096) from rfl] at hv
          injection hv with hv
          rw [← hv]
          rfl)
      (by intro v hv; exact Option.noConfusion hv)
      (by intro v hv; exact Option.noConfusion hv)
  exact h.1.trans rfl

/-- C6 (confirmed).  `load_model` returns -1 when loading the model
weights fails, -2 when context creation fails after a successful model
load, and 0 on success. -/
theorem load_model_return_codes (st : EngineState) (p : String)
    (modelLoadOk ctxOk : Bool) (t : Nat) :
    (load_model st p modelLoadOk ctxOk t).1 =
      if modelLoadOk = false then -1 else if ctxOk = false then -2 else 0 := by
  cases modelLoadOk <;> cases ctxOk <;> rfl

/-- C7 (confirmed).  `load_mmproj` with no model loaded fails with -2
and leaves the state (in particular the projector handle) untouched;
with a model loaded it replaces the projector handle with a context
configured for CPU execution (`use_gpu = false`) with image-token
budget minimum 32 and maximum `img_max_tokens`, returning 0, or with
the null result of a failed initialization, returning -1. -/
theorem load_mmproj_contract (st : EngineState) (initOk : Bool) :
    (st.g_model = none → load_mmproj st initOk = (-2, st)) ∧
    (¬ st.g_model = none →
      (load_mmproj st initOk).1 = (if initOk then 0 else -1) ∧
      (load_mmproj st initOk).2.g_mtmd_ctx =
        (if initOk then some ⟨false, 32, st.conf.img_max_tokens⟩ else none)) := by
  constructor
  · intro h
    unfold load_mmproj
    rw [h]
  · intro h
    cases hm : st.g_model with
    | none => exact absurd hm h
    | some q =>
      unfold load_mmproj
      rw [hm]
      cases initOk <;> exact ⟨rfl, rfl⟩

/-- C7 witness: both branches of the contract at concrete states. -/
theorem load_mmproj_contract_witness :
    load_mmproj initState true = (-2, initState) ∧
    (load_mmproj loadedState true).1 = 0 := by
  refine ⟨(load_mmproj_contract initState true).1 rfl, ?_⟩
  have h := ((load_mmproj_contract loadedState true).2 (by decide)).1
  simpa using h

/-- C8 (confirmed).  Every release in `free_engine` is guarded by a null
check: a release action is performed exactly when the corresponding
handle is non-null, and on an engine that was never loaded the only
action is the backend release. -/
theorem free_engine_guarded_releases (st : EngineState) :
    (FreeAction.freeMtmd ∈ free_engine st ↔ st.g_mtmd_ctx.isSome = true) ∧
    (FreeAction.freeSampler ∈ free_engine st ↔ st.g_sampler.isSome = true) ∧
    (FreeAction.freeModel ∈ free_engine st ↔ st.g_model.isSome = true) ∧
    (FreeAction.freeCtx ∈ free_engine st ↔ st.g_ctx.isSome = true) ∧
    free_engine initState = [FreeAction.backendFree] := by
  obtain ⟨conf, gm, gc, gv, gs, gmt, gf⟩ := st
  cases gm <;> cases gc <;> cases gs <;> cases gmt <;>
    simp [free_engine, initState]

/-- C9 (confirmed).  On every successful `load_model` call the sampler
chain is exactly five stages in order: repetition penalties, top-k,
top-p, temperature, and a final stochastic draw seeded from the
wall-clock time (cast to 32 bits). -/
theorem load_model_sampler_chain (st : EngineState) (p : String)
    (modelLoadOk ctxOk : Bool) (t : Nat)
    (h : (load_model st p modelLoadOk ctxOk t).1 = 0) :
    (load_model st p modelLoadOk ctxOk t).2.g_sampler =
      some [SamplerStage.penalties 64, SamplerStage.top_k 40,
        SamplerStage.top_p 1, SamplerStage.temp,
        SamplerStage.dist (t % 2 ^ 32)] := by
  cases modelLoadOk with
  | false => simp [load_model] at h
  | true =>
    cases ctxOk with
    | false => simp [load_model] at h
    | true => rfl

/-- C9 witness: a successful load at time 7 yields the five-stage chain
seeded with 7. -/
theorem load_model_sampler_chain_witness :
    (load_model initState "m" true true 7).2.g_sampler =
      some [SamplerStage.penalties 64, SamplerStage.top_k 40,
        SamplerStage.top_p 1, SamplerStage.temp, SamplerStage.dist 7] := by
  have h := load_model_sampler_chain initState "m" true true 7 rfl
  simpa using h

/-- Oracle run in which the first sampled token is an ordinary token of
piece length 1 and the second is end-of-generation; no cancel is ever
delivered after the entry reset. -/
def envEogAtStepOne : InferEnv :=
  ⟨fun i => if i = 0 then 0 else 1, fun tok => decide (tok = 1), fun _ => 1,
    fun _ => true, fun _ => false⟩

/-- C2 counterexample.  The claim says a cancellation requested before
generation begins (a `cancel_inference` call preceding the `infer`
call) makes `infer` invoke the callback zero times.  In fact `infer`
clears `g_cancel_flag` on entry, so the requested cancellation is
discarded: with the flag set by `cancel_inference` and no further
cancel delivered, a run whose second sampled token is end-of-generation
invokes the callback once. -/
theorem infer_after_prior_cancel_still_calls_back :
    (cancel_inference loadedState).g_cancel_flag = true ∧
    (infer (cancel_inference loadedState) "hi" none envEogAtStepOne).1.callbacks = 1 := by
  exact ⟨rfl, by decide⟩

/-- C2 (amended).  A cancellation requested before the `infer` call has
no effect, because `infer` resets the cancellation flag on entry (so
the whole call behaves exactly as if `cancel_inference` had not been
called); only a cancellation delivered after that reset stops
generation, and when it is observed at the first poll — before any
token is sampled — the callback is invoked zero times. -/
theorem infer_cancel_after_reset_zero_callbacks (st : EngineState)
    (pr : String) (img : Option String) (env : InferEnv)
    (hc : ¬ st.g_ctx = none) (hs : ¬ st.g_sampler = none)
    (h0 : env.cancelDelivered 0 = true) :
    infer (cancel_inference st) pr img env = infer st pr img env ∧
    (infer st pr img env).1.callbacks = 0 ∧
    (infer st pr img env).1.reason = some StopReason.cancelled := by
  have hflag : flagAt env.cancelDelivered 0 = true := by
    have h1 : List.range 1 = [0] := rfl
    simp [flagAt, h1, h0]
  have hloop : genLoop env 0 0 4096 = ⟨0, 0, StopReason.cancelled⟩ := by
    rw [show (4096 : Nat) = 4095 + 1 from rfl, genLoop_succ, hflag]
    simp
  refine ⟨?_, ?_, ?_⟩
  · rw [infer_run st pr img env hc hs, infer_run (cancel_inference st) pr img env hc hs]
    rfl
  · rw [infer_run st pr img env hc hs, hloop]
  · rw [infer_run st pr img env hc hs, hloop]

/-- C2 witness: at a concretely loaded state with a cancellation
delivered before the first poll, zero callbacks occur. -/
theorem infer_cancel_after_reset_zero_callbacks_witness :
    (infer loadedState "hi" none
        ⟨fun _ => 0, fun _ => false, fun _ => 1, fun _ => true, fun _ => true⟩).1.callbacks
      = 0 :=
  (infer_cancel_after_reset_zero_callbacks loadedState "hi" none
    ⟨fun _ => 0, fun _ => false, fun _ => 1, fun _ => true, fun _ => true⟩
    (by decide) (by decide) rfl).2.1

/-- C5 (confirmed).  Every `infer` call with a loaded context and
sampler samples at most 4096 tokens (one per decode step, with at most
one callback per sampled token), and its loop stops early exactly on a
stop condition: exhausting all 4096 steps is reported as `maxSteps`;
an early `cancelled` stop happens only when the cancellation flag was
observed at the poll of the stopping step, an `eog` stop only when the
token sampled last was end-of-generation, a `decodeFail` stop only
when the decode of the last sampled token failed; and when no stop
condition ever holds, the loop runs all 4096 steps. -/
theorem infer_loop_bounded_and_stop_conditions (st : EngineState) (pr : String)
    (img : Option String) (env : InferEnv)
    (hc : ¬ st.g_ctx = none) (hs : ¬ st.g_sampler = none) :
    (infer st pr img env).1.samples ≤ 4096 ∧
    (infer st pr img env).1.callbacks ≤ (infer st pr img env).1.samples ∧
    ((infer st pr img env).1.reason = some StopReason.maxSteps →
      (infer st pr img env).1.samples = 4096) ∧
    ((infer st pr img env).1.reason = some StopReason.cancelled →
      flagAt env.cancelDelivered (infer st pr img env).1.samples = true) ∧
    ((infer st pr img env).1.reason = some StopReason.eog →
      env.isEog (env.sampled ((infer st pr img env).1.samples - 1)) = true) ∧
    ((infer st pr img env).1.reason = some StopReason.decodeFail →
      env.decodeOk ((infer st pr img env).1.samples - 1) = false) ∧
    ((∀ k, flagAt env.cancelDelivered k = false) →
      (∀ k, env.isEog (env.sampled k) = false) →
      (∀ k, env.decodeOk k = true) →
      (infer st pr img env).1.reason = some StopReason.maxSteps ∧
      (infer st pr img env).1.samples = 4096) := by
  rw [infer_run st pr img env hc hs]
  dsimp only
  obtain ⟨c1, c2, c3⟩ := genLoop_counts env 4096 0 0
  obtain ⟨m1, m2, m3, m4⟩ := genLoop_stop_reasons env 4096 0 0
  refine ⟨by omega, by omega, ?_, ?_, ?_, ?_, ?_⟩
  · intro h
    have := m1 (Option.some.inj h)
    omega
  · intro h
    exact m2 (Option.some.inj h)
  · intro h
    exact m3 (Option.some.inj h)
  · intro h
    exact m4 (Option.some.inj h)
  · intro ha hb hd
    obtain ⟨r1, r2⟩ := genLoop_no_stop env ha hb hd 4096 0 0
    exact ⟨congrArg some r1, by omega⟩

/-- Oracle run in which generation proceeds without any stop condition:
ordinary tokens, successful decodes, no cancellation. -/
def envAllGood : InferEnv :=
  ⟨fun _ => 0, fun _ => false, fun _ => 1, fun _ => true, fun _ => false⟩

/-- C5 witness: the sample bound at a concretely loaded state. -/
theorem infer_loop_bounded_witness :
    (infer loadedState "hi" none envAllGood).1.samples ≤ 4096 :=
  (infer_loop_bounded_and_stop_conditions loadedState "hi" none envAllGood
    (by decide) (by decide)).1

/-- C10 (confirmed).  With a loaded context and sampler, the
image/multimodal branch of `infer` is taken exactly when the image
argument is non-null, non-empty and a projector is loaded; in every
other case — in particular an image path supplied with no projector
loaded, or an empty path — `infer` falls back to the text branch and
still returns 0. -/
theorem infer_image_branch_condition (st : EngineState) (pr : String)
    (img : Option String) (env : InferEnv)
    (hc : ¬ st.g_ctx = none) (hs : ¬ st.g_sampler = none) :
    ((infer st pr img env).1.usedImageBranch = true ↔
      ∃ s, img = some s ∧ ¬ s = "" ∧ ¬ st.g_mtmd_ctx = none) ∧
    (infer st pr img env).1.ret = 0 := by
  rw [infer_run st pr img env hc hs]
  dsimp only
  refine ⟨?_, rfl⟩
  cases img with
  | none => simp [imageBranchTaken]
  | some s =>
    simp only [imageBranchTaken, Bool.and_eq_true, decide_eq_true_eq,
      Option.isSome_iff_ne_none, ne_eq, Option.some.injEq]
    constructor
    · rintro ⟨hm, hne⟩
      exact ⟨s, rfl, hne, hm⟩
    · rintro ⟨t, ht, hne, hm⟩
      cases ht
      exact ⟨hm, hne⟩

/-- A state with both a model and a multimodal projector loaded. -/
def projState : EngineState :=
  (load_mmproj loadedState true).2

/-- C10 witness: with a projector the branch is taken on a non-empty
path; without one (or with an empty path) `infer` falls back to the
text branch and returns 0. -/
theorem infer_image_branch_condition_witness :
    (infer projState "hi" (some "img.png") envAllGood).1.usedImageBranch = true ∧
    (infer projState "hi" (some "") envAllGood).1.usedImageBranch = false ∧
    (infer loadedState "hi" (some "img.png") envAllGood).1.usedImageBranch = false ∧
    (infer loadedState "hi" (some "img.png") envAllGood).1.ret = 0 := by
  refine ⟨by decide, by decide, by decide, ?_⟩
  exact (infer_image_branch_condition loadedState "hi" (some "img.png") envAllGood
    (by decide) (by decide)).2

end LibAiEngine
